import Mathlib

/-!
Verification development for a Go module proxy (read-through disk cache).

The Go source is shallowly embedded: strings are `List Char`, byte payloads
are `List Nat`, the filesystem is an association list from paths to byte
payloads, and fallible system calls are modelled with explicit failure
injection parameters.  Every definition is translated from the source files
(`cache.go`, `main.go`, and the proxy/DNS file); definitions that model Go
standard-library behaviour (`path/filepath.Clean`, `context.WithTimeout`,
`http.Client` timeouts) follow the documented stdlib semantics and say so
in their doc comments.
-/

namespace GoProxy

/-- Convert a string literal to the `List Char` representation used here. -/
def toL (s : String) : List Char := s.data

/-! ## Strings: prefix/trim/contains helpers (Go `strings` package) -/

/-- Model of Go `strings.HasPrefix s pre`. -/
def hasPrefixL : List Char → List Char → Bool
  | _, [] => true
  | [], _ :: _ => false
  | c :: cs, p :: ps => c = p && hasPrefixL cs ps

/-- Model of Go `strings.TrimPrefix s pre`. -/
def trimPrefixL (s pre : List Char) : List Char :=
  if hasPrefixL s pre then s.drop pre.length else s

/-- Model of Go `strings.Contains s ":"` for the single character `:`. -/
def containsColon (s : List Char) : Bool := s.contains ':'

/-- Model of Go `strings.ReplaceAll s "/" (string sep)` for a one-character
separator: every `/` is mapped to `sep`. -/
def replaceSlash (sep : Char) (s : List Char) : List Char :=
  s.map (fun c => if c = '/' then sep else c)

/-! ## `path/filepath` model (Unix build, per the `GOOS=linux` Dockerfile) -/

/-- `filepath.Separator` on the Linux build. -/
def filepathSeparator : Char := '/'

/-- Split a path on `/` into components (`strings.Split s "/"`). -/
def splitSlash : List Char → List (List Char)
  | [] => [[]]
  | c :: cs =>
    if c = '/' then [] :: splitSlash cs
    else
      match splitSlash cs with
      | [] => [[c]]
      | p :: ps => (c :: p) :: ps

/-- Join components back with `/` (inverse of `splitSlash`). -/
def joinSlash : List (List Char) → List Char
  | [] => []
  | [p] => p
  | p :: ps => p ++ '/' :: joinSlash ps

/-- One step of the stack-based component cleaning used by `filepath.Clean`:
empty and `.` components are dropped, `..` pops the previous component
(dropped entirely at the root, kept when there is nothing to pop in a
relative path), anything else is pushed. -/
def cleanStack (rooted : Bool) : List (List Char) → List (List Char) → List (List Char)
  | stack, [] => stack.reverse
  | stack, p :: ps =>
    if p = [] ∨ p = ['.'] then cleanStack rooted stack ps
    else if p = ['.', '.'] then
      match stack with
      | [] => if rooted then cleanStack rooted [] ps else cleanStack rooted [['.', '.']] ps
      | q :: rest =>
        if q = ['.', '.'] then cleanStack rooted (p :: q :: rest) ps
        else cleanStack rooted rest ps
    else cleanStack rooted (p :: stack) ps

/-- Model of Go `path/filepath.Clean` on the Unix build: lexical path
cleaning (documented stdlib semantics). -/
def goClean (path : List Char) : List Char :=
  if path = [] then ['.']
  else
    let rooted := path.head? = some '/'
    let comps := cleanStack rooted [] (splitSlash path)
    if rooted then '/' :: joinSlash comps
    else if comps = [] then ['.'] else joinSlash comps

/-- Model of Go `path/filepath.Join a b` on the Unix build: join with the
separator starting from the first non-empty element, then `Clean`. -/
def goJoin (a b : List Char) : List Char :=
  if a ≠ [] then goClean (a ++ '/' :: b)
  else if b ≠ [] then goClean b
  else []

/-! ## `cache.go` -/

/-- From `cache.go`: `cachePath` converts a URL path to a filesystem path by
replacing `/` with the OS separator and joining under the base directory. -/
def cachePath (baseDir urlPath : List Char) : List Char :=
  goJoin baseDir (replaceSlash filepathSeparator urlPath)

/-- The temporary-file path used by `writeCache` (`path + ".tmp"`). -/
def tmpPath (path : List Char) : List Char := path ++ toL ".tmp"

/-- Filesystem model: an association list from paths to byte payloads. -/
abbrev FS : Type := List (List Char × List Nat)

/-- Read the content stored at a path, if any. -/
def fsRead : FS → List Char → Option (List Nat)
  | [], _ => none
  | (q, d) :: fs, p => if q = p then some d else fsRead fs p

/-- Delete the file at a path (`os.Remove`; removing a missing file is a
no-op here, matching how the source ignores the `Remove` result). -/
def fsRemove : FS → List Char → FS
  | [], _ => []
  | (q, d) :: fs, p => if q = p then fsRemove fs p else (q, d) :: fsRemove fs p

/-- Create or overwrite the file at a path. -/
def fsWrite (fs : FS) (p : List Char) (d : List Nat) : FS :=
  (p, d) :: fsRemove fs p

/-- Model of `os.Rename src dst`: fails when `src` is absent, otherwise
atomically moves the content of `src` to `dst`. -/
def fsRename (fs : FS) (src dst : List Char) : Option FS :=
  match fsRead fs src with
  | none => none
  | some d => some (fsWrite (fsRemove fs src) dst d)

/-- From `cache.go`: `readCache path` is `os.ReadFile path`; the success
case returns the stored bytes.  (Handlers below inject the error cases
through an explicit `Except` parameter.) -/
def readCache (fs : FS) (p : List Char) : Option (List Nat) := fsRead fs p

/-- Failure injection points of `writeCache` in `cache.go`: `os.MkdirAll`
may fail (filesystem untouched), `os.WriteFile` on the temp path may fail
at open (untouched) or mid-write (the bytes written so far remain at the
temp path — `WriteFile` does not clean up), and `os.Rename` may fail
(complete temp file remains, final path untouched). -/
inductive WriteFailure
  | mkdirFail
  | writeFileOpenFail
  | writeFileShortWrite (written : List Nat)
  | renameFail
  deriving DecidableEq

/-- From `cache.go`: `writeCache` writes `data` to `path + ".tmp"` and then
renames the temp file onto `path`.  The `Option WriteFailure` parameter
injects the possible system-call failures; the `Bool` result is `true`
exactly when the Go function returns a nil error. -/
def writeCacheF (fs : FS) (path : List Char) (data : List Nat) :
    Option WriteFailure → FS × Bool
  | some .mkdirFail => (fs, false)
  | some .writeFileOpenFail => (fs, false)
  | some (.writeFileShortWrite written) => (fsWrite fs (tmpPath path) written, false)
  | some .renameFail => (fsWrite fs (tmpPath path) data, false)
  | none =>
    let fs1 := fsWrite fs (tmpPath path) data
    match fsRename fs1 (tmpPath path) path with
    | some fs2 => (fs2, true)
    | none => (fs1, false)

/-- From `cache.go`: `cacheExists` is `os.Stat` succeeding. -/
def cacheExists (fs : FS) (p : List Char) : Bool := (fsRead fs p).isSome

/-! ### Cache-engine lemmas -/

theorem fsRead_fsWrite_self (fs : FS) (p : List Char) (d : List Nat) :
    fsRead (fsWrite fs p d) p = some d := by
  simp [fsWrite, fsRead]

theorem fsRead_fsRemove_other (fs : FS) (p q : List Char) (h : q ≠ p) :
    fsRead (fsRemove fs p) q = fsRead fs q := by
  induction fs with
  | nil => simp [fsRemove, fsRead]
  | cons e fs ih =>
    obtain ⟨a, d⟩ := e
    by_cases he : a = p
    · simpa [fsRemove, fsRead, he, Ne.symm h] using ih
    · by_cases heq : a = q
      · simp [fsRemove, fsRead, he, heq, h]
      · simpa [fsRemove, fsRead, he, heq] using ih

theorem fsRead_fsWrite_other (fs : FS) (p q : List Char) (d : List Nat)
    (h : q ≠ p) : fsRead (fsWrite fs p d) q = fsRead fs q := by
  have : fsRead (fsWrite fs p d) q = fsRead (fsRemove fs p) q := by
    simp [fsWrite, fsRead, fsRemove, Ne.symm h]
  rw [this, fsRead_fsRemove_other fs p q h]

theorem fsRead_fsRemove_self (fs : FS) (p : List Char) :
    fsRead (fsRemove fs p) p = none := by
  induction fs with
  | nil => simp [fsRemove, fsRead]
  | cons e fs ih =>
    by_cases he : e.1 = p
    · simpa [fsRemove, he] using ih
    · simpa [fsRemove, fsRead, he] using ih

theorem tmpPath_ne (p : List Char) : tmpPath p ≠ p := by
  intro h
  have := congrArg List.length h
  simp [tmpPath, toL] at this

/-! ### Path lemmas -/

theorem splitSlash_ne_nil (s : List Char) : splitSlash s ≠ [] := by
  cases s with
  | nil => simp [splitSlash]
  | cons c cs =>
    by_cases hc : c = '/'
    · simp [splitSlash, hc]
    · simp only [splitSlash, if_neg hc]
      cases h : splitSlash cs <;> simp

theorem splitSlash_append (xs ys : List Char) :
    splitSlash (xs ++ '/' :: ys) = splitSlash xs ++ splitSlash ys := by
  induction xs with
  | nil => simp [splitSlash]
  | cons c cs ih =>
    by_cases hc : c = '/'
    · simp [splitSlash, hc, ih]
    · simp only [List.cons_append, splitSlash, if_neg hc]
      cases h : splitSlash cs with
      | nil => exact absurd h (splitSlash_ne_nil cs)
      | cons p ps => simp only [List.append_eq]; rw [ih, h]; simp

theorem joinSlash_splitSlash (s : List Char) : joinSlash (splitSlash s) = s := by
  induction s with
  | nil => rfl
  | cons c cs ih =>
    by_cases hc : c = '/'
    · cases h : splitSlash cs with
      | nil => exact absurd h (splitSlash_ne_nil cs)
      | cons p ps =>
        rw [h] at ih
        simp [splitSlash, hc, h, joinSlash, ih]
    · cases h : splitSlash cs with
      | nil => exact absurd h (splitSlash_ne_nil cs)
      | cons p ps =>
        rw [h] at ih
        cases ps with
        | nil => simp [splitSlash, hc, h, joinSlash] at ih ⊢; rw [ih]
        | cons q rest => simp [splitSlash, hc, h, joinSlash] at ih ⊢; rw [ih]

/-- A path component is "clean-proof": non-empty and neither `.` nor `..`. -/
def goodComp (p : List Char) : Bool :=
  decide (p ≠ [] ∧ p ≠ ['.'] ∧ p ≠ ['.', '.'])

/-- All slash-separated components of the path are clean-proof. -/
def goodPath (s : List Char) : Bool := (splitSlash s).all goodComp

theorem cleanStack_good (r : Bool) (l : List (List Char)) (stack : List (List Char))
    (h : ∀ p ∈ l, goodComp p = true) :
    cleanStack r stack l = stack.reverse ++ l := by
  induction l generalizing stack with
  | nil => simp [cleanStack]
  | cons p ps ih =>
    have hp := h p (by simp)
    have hp1 : ¬(p = [] ∨ p = ['.']) := by
      simp [goodComp] at hp
      tauto
    have hp2 : p ≠ ['.', '.'] := by
      simp [goodComp] at hp
      tauto
    rw [show cleanStack r stack (p :: ps) = cleanStack r (p :: stack) ps by
      simp [cleanStack, hp1, hp2]]
    rw [ih (p :: stack) (fun q hq => h q (by simp [hq]))]
    simp

theorem goodPath_ne_nil (s : List Char) (h : goodPath s = true) : s ≠ [] := by
  intro hs
  subst hs
  simp [goodPath, splitSlash, goodComp] at h

theorem goodPath_head_ne_slash (s : List Char) (h : goodPath s = true) :
    s.head? ≠ some '/' := by
  intro hs
  cases s with
  | nil => simp at hs
  | cons c cs =>
    simp at hs
    subst hs
    simp [goodPath, splitSlash, goodComp, List.all_cons] at h

theorem goClean_good (s : List Char) (h : goodPath s = true) : goClean s = s := by
  have hne : s ≠ [] := goodPath_ne_nil s h
  have hhead : ¬(s.head? = some '/') := goodPath_head_ne_slash s h
  have hstack : ∀ r, cleanStack r [] (splitSlash s) = splitSlash s := by
    intro r
    have := cleanStack_good r (splitSlash s) []
      (by
        intro p hp
        have := h
        simp only [goodPath, List.all_eq_true] at this
        exact this p hp)
    simpa using this
  simp [goClean, hne, hhead, hstack, splitSlash_ne_nil, joinSlash_splitSlash]

theorem replaceSlash_sep (s : List Char) : replaceSlash '/' s = s := by
  induction s with
  | nil => rfl
  | cons c cs ih =>
    by_cases hc : c = '/' <;> simp [replaceSlash, hc] <;>
      simpa [replaceSlash] using ih

theorem hasPrefixL_append_same (a b c : List Char) :
    hasPrefixL (a ++ b) (a ++ c) = hasPrefixL b c := by
  induction a with
  | nil => simp
  | cons x xs ih => simp [hasPrefixL, ih]

/-- The path `p` lies strictly under the directory `dir` (it extends
`dir ++ "/"`). -/
def underDir (dir p : List Char) : Bool := hasPrefixL p (dir ++ ['/'])

/-- From `HandleRequest` (proxy source, line 353): the cache key is the
inbound URL path with the leading `/` stripped. -/
def requestKey (urlPath : List Char) : List Char := trimPrefixL urlPath (toL "/")

/-! ## Claim C1 -/

/-- Claim C1: for every key and payload, a successful `writeCache` of the
payload at the path derived from the key, followed by `readCache` of that
path, returns exactly the written bytes. -/
theorem writeCache_readCache_roundtrip (fs : FS) (dir key : List Char) (data : List Nat) :
    (writeCacheF fs (cachePath dir key) data none).2 = true
  ∧ readCache (writeCacheF fs (cachePath dir key) data none).1 (cachePath dir key) = some data := by
  constructor
  · simp [writeCacheF, fsRename, fsRead_fsWrite_self]
  · simp [writeCacheF, fsRename, fsRead_fsWrite_self, readCache]

/-! ## Claim C3 -/

/-- Claim C3, counterexample: the key `..` (all keys were claimed to map
verbatim under the cache root) is lexically cleaned by `filepath.Join`, so
`cachePath "cache" ".."` is `"."` — not `"cache/.."`, and not under the
cache directory at all. -/
theorem cachePath_dotdot_escapes :
    cachePath (toL "cache") (toL "..") = toL "."
  ∧ cachePath (toL "cache") (toL "..") ≠ toL "cache" ++ '/' :: toL ".."
  ∧ underDir (toL "cache") (cachePath (toL "cache") (toL "..")) = false := by
  refine ⟨by decide, by decide, by decide⟩

/-- Claim C3, amended: for every key and cache root whose slash-separated
components are all non-empty and neither `.` nor `..`, `cachePath` equals
the root joined with the key verbatim (separators mapped to the host
separator, which on this Linux build is `/` itself), the result lies under
the cache root, and the temporary file used during a write is the final
path with `.tmp` appended.  (Keys containing empty, `.` or `..` components
are lexically cleaned by `filepath.Join` instead, as the counterexample
shows.) -/
theorem cachePath_good_key (base key : List Char)
    (hb : goodPath base = true) (hk : goodPath key = true) :
    cachePath base key = base ++ '/' :: key
  ∧ underDir base (cachePath base key) = true
  ∧ tmpPath (cachePath base key) = cachePath base key ++ toL ".tmp" := by
  have hbne : base ≠ [] := goodPath_ne_nil base hb
  have hgood : goodPath (base ++ '/' :: key) = true := by
    simp only [goodPath, splitSlash_append, List.all_append]
    simp only [goodPath] at hb hk
    simp [hb, hk]
  have hmain : cachePath base key = base ++ '/' :: key := by
    simp [cachePath, filepathSeparator, replaceSlash_sep, goJoin, hbne,
      goClean_good _ hgood]
  refine ⟨hmain, ?_, rfl⟩
  rw [hmain]
  show hasPrefixL (base ++ '/' :: key) (base ++ ['/']) = true
  rw [show (['/'] : List Char) = '/' :: [] from rfl, hasPrefixL_append_same]
  simp [hasPrefixL]

/-- Claim C3 witness: the amended statement evaluated at the cache root
`cache` and the list-verb key of a concrete module. -/
theorem cachePath_good_key_witness :
    goodPath (toL "cache") = true ∧ goodPath (toL "example.com/@v/list") = true ∧
    (cachePath (toL "cache") (toL "example.com/@v/list")
        = toL "cache" ++ '/' :: toL "example.com/@v/list"
      ∧ underDir (toL "cache") (cachePath (toL "cache") (toL "example.com/@v/list")) = true
      ∧ tmpPath (cachePath (toL "cache") (toL "example.com/@v/list"))
          = cachePath (toL "cache") (toL "example.com/@v/list") ++ toL ".tmp") :=
  ⟨by decide, by decide, cachePath_good_key _ _ (by decide) (by decide)⟩

/-! ## Handler embedding (proxy source, `handleList` / `handleInfo` /
`handleMod` / `handleZip`)

The filesystem content is the `FS` association list; the outcomes of the
fallible system and network calls (cache read, upstream round-trip, body
read, JSON unmarshal, mkdir/create/copy/rename) are injected as explicit
parameters so that every control-flow branch of the Go handlers is
reachable in the model. -/

/-- Error kinds `os.ReadFile` / `os.Open` / `Stat` can produce. -/
inductive ReadErr
  | notFound
  | permission
  | ioErr
  deriving DecidableEq

/-- View of `Except` as a sum, to transfer decidable equality. -/
def exceptToSum {ε α : Type} : Except ε α → ε ⊕ α
  | .error e => .inl e
  | .ok a => .inr a

instance {ε α : Type} [DecidableEq ε] [DecidableEq α] : DecidableEq (Except ε α) :=
  fun a b =>
    decidable_of_iff (exceptToSum a = exceptToSum b)
      (by cases a <;> cases b <;> simp [exceptToSum])

/-- Outcome of the buffered upstream fetch (`p.client.Do` plus
`io.ReadAll`): a network error, or a status code with a body read that can
itself fail. -/
inductive UpstreamResult
  | netErr
  | resp (status : Nat) (bodyRead : Except Unit (List Nat))
  deriving DecidableEq

/-- Outcome of the streaming upstream fetch used by `handleZip`. -/
inductive ZipUpstream
  | netErr
  | resp (status : Nat) (body : List Nat)
  deriving DecidableEq

/-- Observable handler result: HTTP status, response body bytes, whether an
upstream fetch was issued, and the resulting filesystem. -/
structure HandlerOut where
  status : Nat
  body : List Nat
  fetched : Bool
  fs : FS
  deriving DecidableEq

/-- Bodies written by `http.Error` are abstracted to an empty payload. -/
def errBody : List Nat := []

/-- From `handleList` (proxy source, lines 385-440): serve the cached bytes
on a successful cache read; otherwise fetch upstream, mirror non-200
statuses, 502 on network error, 500 on body-read error, and on success
cache the bytes (a cache-write error is ignored) and serve them. -/
def handleList (fs : FS) (cp : List Char) (cread : Except ReadErr (List Nat))
    (up : UpstreamResult) (wfail : Option WriteFailure) : HandlerOut :=
  match cread with
  | .ok cached => ⟨200, cached, false, fs⟩
  | .error _ =>
    match up with
    | .netErr => ⟨502, errBody, true, fs⟩
    | .resp st bodyRead =>
      if st ≠ 200 then ⟨st, errBody, true, fs⟩
      else
        match bodyRead with
        | .error _ => ⟨500, errBody, true, fs⟩
        | .ok data => ⟨200, data, true, (writeCacheF fs cp data wfail).1⟩

/-- From `handleInfo` (proxy source, lines 443-506): as `handleList`, but
the fetched body must additionally unmarshal as JSON (modelled by the
`unmarshalOk` oracle standing for `json.Unmarshal` succeeding) before it is
cached and served; an unmarshal failure yields 502 with no cache write. -/
def handleInfo (fs : FS) (cp : List Char) (cread : Except ReadErr (List Nat))
    (up : UpstreamResult) (unmarshalOk : List Nat → Bool)
    (wfail : Option WriteFailure) : HandlerOut :=
  match cread with
  | .ok cached => ⟨200, cached, false, fs⟩
  | .error _ =>
    match up with
    | .netErr => ⟨502, errBody, true, fs⟩
    | .resp st bodyRead =>
      if st ≠ 200 then ⟨st, errBody, true, fs⟩
      else
        match bodyRead with
        | .error _ => ⟨500, errBody, true, fs⟩
        | .ok data =>
          if unmarshalOk data then ⟨200, data, true, (writeCacheF fs cp data wfail).1⟩
          else ⟨502, errBody, true, fs⟩

/-- From `handleMod` (proxy source, lines 509-564): structurally identical
to `handleList`. -/
def handleMod (fs : FS) (cp : List Char) (cread : Except ReadErr (List Nat))
    (up : UpstreamResult) (wfail : Option WriteFailure) : HandlerOut :=
  match cread with
  | .ok cached => ⟨200, cached, false, fs⟩
  | .error _ =>
    match up with
    | .netErr => ⟨502, errBody, true, fs⟩
    | .resp st bodyRead =>
      if st ≠ 200 then ⟨st, errBody, true, fs⟩
      else
        match bodyRead with
        | .error _ => ⟨500, errBody, true, fs⟩
        | .ok data => ⟨200, data, true, (writeCacheF fs cp data wfail).1⟩

/-- The cache-miss branch of `handleZip` (proxy source, lines 588-662):
stream the upstream body to the client and to `cp + ".tmp"` at once
(`io.MultiWriter`); `mkdirFail`/`createFail` inject `os.MkdirAll` and
`os.Create` failures (500), `copyFail = some n` injects a stream error
after `n` bytes (partial body already sent, temp file removed), and on a
complete copy the temp file is renamed onto the final path (`renameFail`
injects an `os.Rename` failure, after which the temp file is removed). -/
def zipMissFetch (fs : FS) (cp : List Char) (up : ZipUpstream)
    (mkdirFail createFail : Bool) (copyFail : Option Nat) (renameFail : Bool) :
    HandlerOut :=
  match up with
  | .netErr => ⟨502, errBody, true, fs⟩
  | .resp st body =>
    if st ≠ 200 then ⟨st, errBody, true, fs⟩
    else if mkdirFail then ⟨500, errBody, true, fs⟩
    else if createFail then ⟨500, errBody, true, fs⟩
    else
      let fs1 := fsWrite fs (tmpPath cp) []
      match copyFail with
      | some n =>
        let fs2 := fsWrite fs1 (tmpPath cp) (body.take n)
        ⟨200, body.take n, true, fsRemove fs2 (tmpPath cp)⟩
      | none =>
        let fs2 := fsWrite fs1 (tmpPath cp) body
        if renameFail then ⟨200, body, true, fsRemove fs2 (tmpPath cp)⟩
        else
          match fsRename fs2 (tmpPath cp) cp with
          | some fs3 => ⟨200, body, true, fs3⟩
          | none => ⟨200, body, true, fs2⟩

/-- From `handleZip` (proxy source, lines 567-662): serve the cached file
when `os.Open` and `Stat` both succeed; any failure of either falls
through to the streaming cache-miss fetch. -/
def handleZip (fs : FS) (cp : List Char)
    (openRes : Except ReadErr (List Nat)) (statFail : Bool)
    (up : ZipUpstream) (mkdirFail createFail : Bool)
    (copyFail : Option Nat) (renameFail : Bool) : HandlerOut :=
  match openRes with
  | .ok content =>
    if statFail then zipMissFetch fs cp up mkdirFail createFail copyFail renameFail
    else ⟨200, content, false, fs⟩
  | .error _ => zipMissFetch fs cp up mkdirFail createFail copyFail renameFail

theorem zipMissFetch_fetched (fs : FS) (cp : List Char) (up : ZipUpstream)
    (mk cr : Bool) (cf : Option Nat) (rf : Bool) :
    (zipMissFetch fs cp up mk cr cf rf).fetched = true := by
  cases up with
  | netErr => rfl
  | resp st body =>
    cases cf with
    | some n =>
      simp only [zipMissFetch]
      split_ifs <;> rfl
    | none =>
      simp only [zipMissFetch]
      split_ifs <;> try rfl
      all_goals split <;> rfl

/-! ## Claim C2 -/

/-- Claim C2, counterexample: in the buffered `writeCache` path a failure
of `os.WriteFile` mid-write leaves the partially written temporary file
behind — `writeCache` has no cleanup between the `WriteFile` error return
and the rename, so "any temporary file is deleted rather than left behind"
fails for the buffered path. -/
theorem writeCache_failure_leaves_tmp :
    (writeCacheF [] (toL "example.com/@v/v1.0.0.info") [1, 2, 3]
        (some (.writeFileShortWrite [1]))).2 = false
  ∧ fsRead (writeCacheF [] (toL "example.com/@v/v1.0.0.info") [1, 2, 3]
        (some (.writeFileShortWrite [1]))).1
      (tmpPath (toL "example.com/@v/v1.0.0.info")) = some [1] := by
  refine ⟨rfl, by decide⟩

/-- Claim C2, amended: a failed cache write never touches the final cache
path — for every failure mode of the buffered `writeCache` the content at
the final path (present or absent) is exactly what it was before, and in
the streaming archive path a copy error or rename error additionally
deletes the temporary file; the buffered path, however, may leave the
temporary file behind (see the counterexample). -/
theorem write_failure_preserves_final (fs fsz : FS) (p cp : List Char)
    (data body : List Nat) (f : WriteFailure) (e : ReadErr) (n : Nat) :
    (writeCacheF fs p data (some f)).2 = false
  ∧ fsRead (writeCacheF fs p data (some f)).1 p = fsRead fs p
  ∧ fsRead (handleZip fsz cp (.error e) false (.resp 200 body) false false
        (some n) false).fs cp = fsRead fsz cp
  ∧ fsRead (handleZip fsz cp (.error e) false (.resp 200 body) false false
        (some n) false).fs (tmpPath cp) = none
  ∧ fsRead (handleZip fsz cp (.error e) false (.resp 200 body) false false
        none true).fs cp = fsRead fsz cp
  ∧ fsRead (handleZip fsz cp (.error e) false (.resp 200 body) false false
        none true).fs (tmpPath cp) = none := by
  have hne : p ≠ tmpPath p := Ne.symm (tmpPath_ne p)
  have hnez : cp ≠ tmpPath cp := Ne.symm (tmpPath_ne cp)
  refine ⟨?_, ?_, ?_, ?_, ?_, ?_⟩
  · cases f <;> rfl
  · cases f <;> simp [writeCacheF, fsRead_fsWrite_other _ _ _ _ hne]
  · simp [handleZip, zipMissFetch, fsRead_fsRemove_other _ _ _ hnez,
      fsRead_fsWrite_other _ _ _ _ hnez]
  · simp [handleZip, zipMissFetch, fsRead_fsRemove_self]
  · simp [handleZip, zipMissFetch, fsRead_fsRemove_other _ _ _ hnez,
      fsRead_fsWrite_other _ _ _ _ hnez]
  · simp [handleZip, zipMissFetch, fsRead_fsRemove_self]

/-- Claim C2 witness: the amended statement evaluated at a concrete
filesystem that already holds old content at the final path: the old
content survives every failure mode exercised. -/
theorem write_failure_preserves_final_witness :
    (writeCacheF [(toL "cache/k", [9])] (toL "cache/k") [1, 2]
        (some .renameFail)).2 = false
  ∧ fsRead (writeCacheF [(toL "cache/k", [9])] (toL "cache/k") [1, 2]
        (some .renameFail)).1 (toL "cache/k") = fsRead [(toL "cache/k", [9])] (toL "cache/k")
  ∧ fsRead (handleZip [(toL "cache/k", [9])] (toL "cache/k") (.error .notFound) false
        (.resp 200 [1, 2]) false false (some 1) false).fs (toL "cache/k")
      = fsRead [(toL "cache/k", [9])] (toL "cache/k")
  ∧ fsRead (handleZip [(toL "cache/k", [9])] (toL "cache/k") (.error .notFound) false
        (.resp 200 [1, 2]) false false (some 1) false).fs (tmpPath (toL "cache/k")) = none
  ∧ fsRead (handleZip [(toL "cache/k", [9])] (toL "cache/k") (.error .notFound) false
        (.resp 200 [1, 2]) false false none true).fs (toL "cache/k")
      = fsRead [(toL "cache/k", [9])] (toL "cache/k")
  ∧ fsRead (handleZip [(toL "cache/k", [9])] (toL "cache/k") (.error .notFound) false
        (.resp 200 [1, 2]) false false none true).fs (tmpPath (toL "cache/k")) = none :=
  write_failure_preserves_final [(toL "cache/k", [9])] [(toL "cache/k", [9])]
    (toL "cache/k") (toL "cache/k") [1, 2] [1, 2] .renameFail .notFound 1

/-! ## Claim C7 -/

/-- Claim C7: on an info-verb cache miss where upstream returns 200 but the
body fails JSON unmarshalling, the handler answers 502 and the filesystem —
in particular the cache entry for that key — is left untouched. -/
theorem handleInfo_invalid_json (fs : FS) (cp : List Char) (e : ReadErr)
    (data : List Nat) (ju : List Nat → Bool) (wfail : Option WriteFailure)
    (h : ju data = false) :
    handleInfo fs cp (.error e) (.resp 200 (.ok data)) ju wfail
      = ⟨502, errBody, true, fs⟩ := by
  simp [handleInfo, h]

/-- Claim C7 witness: the theorem evaluated on the empty cache with the
body bytes of `not-json` and an unmarshal oracle that rejects them. -/
theorem handleInfo_invalid_json_witness :
    (fun _ => false : List Nat → Bool) [110, 111, 116, 45, 106, 115, 111, 110] = false
  ∧ handleInfo [] (toL "example.com/@v/v1.0.0.info") (.error .notFound)
      (.resp 200 (.ok [110, 111, 116, 45, 106, 115, 111, 110])) (fun _ => false) none
      = ⟨502, errBody, true, []⟩ :=
  ⟨rfl, handleInfo_invalid_json [] (toL "example.com/@v/v1.0.0.info") .notFound
    [110, 111, 116, 45, 106, 115, 111, 110] (fun _ => false) none rfl⟩

/-! ## Claim C8 -/

/-- Claim C8: when the upstream fetch fully succeeds (status 200, body read
and — for the info verb — JSON validation all succeed), a failure of the
subsequent cache write is swallowed: the list, info and mod handlers still
answer 200 with exactly the fetched bytes. -/
theorem persist_failure_swallowed (fs : FS) (cp : List Char) (e : ReadErr)
    (data : List Nat) (ju : List Nat → Bool) (f : WriteFailure)
    (hj : ju data = true) :
    ((handleList fs cp (.error e) (.resp 200 (.ok data)) (some f)).status = 200
      ∧ (handleList fs cp (.error e) (.resp 200 (.ok data)) (some f)).body = data)
  ∧ ((handleInfo fs cp (.error e) (.resp 200 (.ok data)) ju (some f)).status = 200
      ∧ (handleInfo fs cp (.error e) (.resp 200 (.ok data)) ju (some f)).body = data)
  ∧ ((handleMod fs cp (.error e) (.resp 200 (.ok data)) (some f)).status = 200
      ∧ (handleMod fs cp (.error e) (.resp 200 (.ok data)) (some f)).body = data) := by
  refine ⟨⟨?_, ?_⟩, ⟨?_, ?_⟩, ⟨?_, ?_⟩⟩ <;>
    simp [handleList, handleInfo, handleMod, hj]

/-- Claim C8 witness: a rename failure during the cache write after a
successful fetch still yields a 200 response carrying the fetched bytes. -/
theorem persist_failure_swallowed_witness :
    (fun _ => true : List Nat → Bool) [4, 5] = true
  ∧ (((handleList [] (toL "m/@v/list") (.error .notFound) (.resp 200 (.ok [4, 5]))
        (some .renameFail)).status = 200
      ∧ (handleList [] (toL "m/@v/list") (.error .notFound) (.resp 200 (.ok [4, 5]))
        (some .renameFail)).body = [4, 5])
    ∧ ((handleInfo [] (toL "m/@v/list") (.error .notFound) (.resp 200 (.ok [4, 5]))
        (fun _ => true) (some .renameFail)).status = 200
      ∧ (handleInfo [] (toL "m/@v/list") (.error .notFound) (.resp 200 (.ok [4, 5]))
        (fun _ => true) (some .renameFail)).body = [4, 5])
    ∧ ((handleMod [] (toL "m/@v/list") (.error .notFound) (.resp 200 (.ok [4, 5]))
        (some .renameFail)).status = 200
      ∧ (handleMod [] (toL "m/@v/list") (.error .notFound) (.resp 200 (.ok [4, 5]))
        (some .renameFail)).body = [4, 5])) :=
  ⟨rfl, persist_failure_swallowed [] (toL "m/@v/list") .notFound [4, 5]
    (fun _ => true) .renameFail rfl⟩

/-! ## Claim C10 -/

/-- Claim C10: every handler treats any cache-read failure — not-found,
permission, or I/O error, and for the zip handler also a `Stat` failure on
a file that opened — exactly like a not-found miss: the handler proceeds to
the upstream fetch, and the read failure itself is never surfaced as a
response. -/
theorem cache_read_failure_is_miss (fs : FS) (cp : List Char) (e : ReadErr)
    (up : UpstreamResult) (wfail : Option WriteFailure) (ju : List Nat → Bool)
    (zup : ZipUpstream) (content : List Nat) (sf mk cr : Bool)
    (cf : Option Nat) (rf : Bool) :
    handleList fs cp (.error e) up wfail = handleList fs cp (.error .notFound) up wfail
  ∧ (handleList fs cp (.error e) up wfail).fetched = true
  ∧ handleInfo fs cp (.error e) up ju wfail = handleInfo fs cp (.error .notFound) up ju wfail
  ∧ (handleInfo fs cp (.error e) up ju wfail).fetched = true
  ∧ handleMod fs cp (.error e) up wfail = handleMod fs cp (.error .notFound) up wfail
  ∧ (handleMod fs cp (.error e) up wfail).fetched = true
  ∧ handleZip fs cp (.error e) sf zup mk cr cf rf
      = handleZip fs cp (.error .notFound) sf zup mk cr cf rf
  ∧ (handleZip fs cp (.error e) sf zup mk cr cf rf).fetched = true
  ∧ handleZip fs cp (.ok content) true zup mk cr cf rf
      = handleZip fs cp (.error .notFound) true zup mk cr cf rf := by
  have hzip : (zipMissFetch fs cp zup mk cr cf rf).fetched = true :=
    zipMissFetch_fetched fs cp zup mk cr cf rf
  have hfetch : ∀ u w, (handleList fs cp (.error e) u w).fetched = true := by
    intro u w
    cases u with
    | netErr => rfl
    | resp st bodyRead =>
      simp only [handleList]
      split_ifs <;> first | rfl | (cases bodyRead <;> rfl)
  have hfetchI : ∀ u w, (handleInfo fs cp (.error e) u ju w).fetched = true := by
    intro u w
    cases u with
    | netErr => rfl
    | resp st bodyRead =>
      simp only [handleInfo]
      split_ifs <;> first | rfl | (cases bodyRead with
        | error u => rfl
        | ok data => by_cases hju : ju data <;> simp [hju])
  have hfetchM : ∀ u w, (handleMod fs cp (.error e) u w).fetched = true := by
    intro u w
    cases u with
    | netErr => rfl
    | resp st bodyRead =>
      simp only [handleMod]
      split_ifs <;> first | rfl | (cases bodyRead <;> rfl)
  exact ⟨rfl, hfetch up wfail, rfl, hfetchI up wfail, rfl, hfetchM up wfail,
    rfl, hzip, rfl⟩

/-! ## DNS resolver construction (proxy source, `createDNSResolver`) -/

/-- The four resolver variants the factory can build. -/
inductive DNSResolver
  | standard (server : List Char)
  | doh (endpoint : List Char)
  | dot (server : List Char)
  | doq (server : List Char)
  deriving DecidableEq

/-- Append the default port when the server string contains no colon (the
`if !strings.Contains(server, ":")` pattern in `createDNSResolver`). -/
def defaultPort (server port : List Char) : List Char :=
  if containsColon server then server else server ++ port

/-- From `createDNSResolver` (proxy source, lines 169-214): prefix-based
dispatch to one of the four resolvers.  The second component is the Go
`error` result, which is nil on every path. -/
def createDNSResolver (dnsURL : List Char) : Option DNSResolver × Option Unit :=
  if dnsURL = [] then (none, none)
  else if hasPrefixL dnsURL (toL "https://") then (some (.doh dnsURL), none)
  else if hasPrefixL dnsURL (toL "quic://") then
    (some (.doq (defaultPort (trimPrefixL dnsURL (toL "quic://")) (toL ":853"))), none)
  else if hasPrefixL dnsURL (toL "tls://") then
    (some (.dot (defaultPort (trimPrefixL dnsURL (toL "tls://")) (toL ":853"))), none)
  else
    (some (.standard (defaultPort (trimPrefixL dnsURL (toL "udp://")) (toL ":53"))), none)

theorem hasPrefixL_cons (s : List Char) (c : Char) (ps : List Char)
    (h : hasPrefixL s (c :: ps) = true) :
    ∃ t, s = c :: t ∧ hasPrefixL t ps = true := by
  cases s with
  | nil => simp [hasPrefixL] at h
  | cons a t =>
    simp [hasPrefixL] at h
    exact ⟨t, by rw [h.1], h.2⟩

theorem hasPrefixL_first_ne (s p q : List Char) (c d : Char) (hc : c ≠ d)
    (h : hasPrefixL s (c :: p) = true) : hasPrefixL s (d :: q) = false := by
  obtain ⟨t, hs, -⟩ := hasPrefixL_cons s c p h
  subst hs
  simp [hasPrefixL, hc]

/-- Claim C4: resolver construction is total (the error result is nil for
every input) and case-complete: empty input yields no resolver, the
`https://`, `quic://` and `tls://` prefixes yield the DoH, DoQ and DoT
resolvers (the latter two with `:853` appended when the remainder has no
colon), and everything else yields the standard UDP resolver with an
optional `udp://` prefix stripped and `:53` appended when it has no
colon. -/
theorem createDNSResolver_spec (s : List Char) :
    (createDNSResolver s).2 = none
  ∧ (s = [] → (createDNSResolver s).1 = none)
  ∧ (hasPrefixL s (toL "https://") = true → (createDNSResolver s).1 = some (.doh s))
  ∧ (hasPrefixL s (toL "quic://") = true →
      (createDNSResolver s).1
        = some (.doq (defaultPort (trimPrefixL s (toL "quic://")) (toL ":853"))))
  ∧ (hasPrefixL s (toL "tls://") = true →
      (createDNSResolver s).1
        = some (.dot (defaultPort (trimPrefixL s (toL "tls://")) (toL ":853"))))
  ∧ (s ≠ [] → hasPrefixL s (toL "https://") = false →
      hasPrefixL s (toL "quic://") = false → hasPrefixL s (toL "tls://") = false →
      (createDNSResolver s).1
        = some (.standard (defaultPort (trimPrefixL s (toL "udp://")) (toL ":53")))) := by
  have hhe : toL "https://" = 'h' :: toL "ttps://" := by decide
  have hqe : toL "quic://" = 'q' :: toL "uic://" := by decide
  have hte : toL "tls://" = 't' :: toL "ls://" := by decide
  refine ⟨?_, ?_, ?_, ?_, ?_, ?_⟩
  · simp only [createDNSResolver]
    split_ifs <;> rfl
  · intro h
    subst h
    rfl
  · intro h
    obtain ⟨t, hs, -⟩ := hasPrefixL_cons _ _ _ (hhe ▸ h)
    have hne : s ≠ [] := by rw [hs]; simp
    simp [createDNSResolver, hne, h]
  · intro h
    have h1 : hasPrefixL s (toL "https://") = false := by
      rw [hhe]
      exact hasPrefixL_first_ne _ _ _ _ _ (by decide) (hqe ▸ h)
    obtain ⟨t, hs, -⟩ := hasPrefixL_cons _ _ _ (hqe ▸ h)
    have hne : s ≠ [] := by rw [hs]; simp
    simp [createDNSResolver, hne, h1, h]
  · intro h
    have h1 : hasPrefixL s (toL "https://") = false := by
      rw [hhe]
      exact hasPrefixL_first_ne _ _ _ _ _ (by decide) (hte ▸ h)
    have h2 : hasPrefixL s (toL "quic://") = false := by
      rw [hqe]
      exact hasPrefixL_first_ne _ _ _ _ _ (by decide) (hte ▸ h)
    obtain ⟨t, hs, -⟩ := hasPrefixL_cons _ _ _ (hte ▸ h)
    have hne : s ≠ [] := by rw [hs]; simp
    simp [createDNSResolver, hne, h1, h2, h]
  · intro hne h1 h2 h3
    simp [createDNSResolver, hne, h1, h2, h3]

/-- Claim C4 witness: the construction evaluated at `tls://1.1.1.1`
(DoT on port 853), `8.8.8.8` (standard DNS on port 53) and the empty
string (no resolver, no error). -/
theorem createDNSResolver_spec_witness :
    hasPrefixL (toL "tls://1.1.1.1") (toL "tls://") = true
  ∧ (createDNSResolver (toL "tls://1.1.1.1")).1 = some (.dot (toL "1.1.1.1:853"))
  ∧ (createDNSResolver (toL "8.8.8.8")).1 = some (.standard (toL "8.8.8.8:53"))
  ∧ (createDNSResolver (toL "")).1 = none
  ∧ (createDNSResolver (toL "tls://1.1.1.1")).2 = none := by
  refine ⟨by decide, ?_, ?_, ?_, ?_⟩
  · rw [(createDNSResolver_spec (toL "tls://1.1.1.1")).2.2.2.2.1 (by decide)]
    decide
  · rw [(createDNSResolver_spec (toL "8.8.8.8")).2.2.2.2.2 (by decide) (by decide)
      (by decide) (by decide)]
    decide
  · exact (createDNSResolver_spec (toL "")).2.1 rfl
  · exact (createDNSResolver_spec (toL "tls://1.1.1.1")).1

/-! ## Proxy URL precedence -/

/-- From `main.go` lines 36-45: when the `-proxy` flag is unset, fall back
to `HTTP_PROXY`, then `HTTPS_PROXY`, then `SOCKS5_PROXY` (else-if chain). -/
def mainProxyFallback (flagProxy envHTTP envHTTPS envSOCKS : List Char) : List Char :=
  if flagProxy = [] then
    if envHTTP ≠ [] then envHTTP
    else if envHTTPS ≠ [] then envHTTPS
    else if envSOCKS ≠ [] then envSOCKS
    else flagProxy
  else flagProxy

/-- From `NewProxy` (proxy source, lines 278-288): the proxy URL starts
from the passed configuration value and the same three environment
fallbacks are applied again, each only when the value is still empty. -/
def newProxyProxyURL (httpProxy envHTTP envHTTPS envSOCKS : List Char) : List Char :=
  let p0 := httpProxy
  let p1 := if p0 = [] then envHTTP else p0
  let p2 := if p1 = [] then envHTTPS else p1
  let p3 := if p2 = [] then envSOCKS else p2
  p3

/-- The spec's words: the first non-empty value in the fixed order. -/
def firstNonEmpty : List (List Char) → List Char
  | [] => []
  | x :: xs => if x = [] then firstNonEmpty xs else x

/-- Claim C6: the proxy URL actually used — the `main.go` fallback chain
followed by the `NewProxy` chain over the same environment values — is the
first non-empty value in the order: explicit flag, HTTP proxy setting,
HTTPS proxy setting, SOCKS5 setting. -/
theorem proxy_precedence (a b c d : List Char) :
    newProxyProxyURL (mainProxyFallback a b c d) b c d = firstNonEmpty [a, b, c, d] := by
  by_cases ha : a = [] <;> by_cases hb : b = [] <;> by_cases hc : c = [] <;>
    by_cases hd : d = [] <;>
    simp [mainProxyFallback, newProxyProxyURL, firstNonEmpty, ha, hb, hc, hd]

/-! ## DNS lookup code paths (DoT and DoQ) -/

/-- Answer records of a DNS reply: an A record carrying an address (the
address itself is abstract), or any other record type, which the lookup
ignores. -/
inductive RR
  | a (ip : Nat)
  | other
  deriving DecidableEq

/-- Abstract network oracle for the framed DNS-over-TLS exchange: given
the server address, the TLS server name, and the queried FQDN, it yields
an error or the reply's answer section.  It stands for the dial, write
and read steps of `DoTResolver.LookupIP`, which the caller's context
deadline can also abort (an oracle error covers that case). -/
def DNSExchange : Type := List Char → List Char → List Char → Except Unit (List RR)

/-- Model of `dns.Fqdn`: append a trailing dot when absent. -/
def fqdn (host : List Char) : List Char :=
  if host.getLast? = some '.' then host else host ++ ['.']

/-- Model of `strings.Split(server, ":")[0]`: the part before the first
colon, used as the TLS server name. -/
def hostOfServer (server : List Char) : List Char :=
  server.takeWhile (fun c => decide (c ≠ ':'))

/-- From `DoTResolver.LookupIP` (proxy source, lines 108-149): exchange an
A-record question for the FQDN with the server over TLS (SNI is the host
part of the server address), keep the A answers, and fail when none are
present. -/
def dotLookupIP (net : DNSExchange) (server host : List Char) :
    Except Unit (List Nat) :=
  match net server (hostOfServer server) (fqdn host) with
  | .error e => .error e
  | .ok answers =>
    let ips := answers.filterMap (fun r =>
      match r with
      | .a ip => some ip
      | .other => none)
    if ips = [] then .error () else .ok ips

/-- From `DoQResolver.LookupIP` (proxy source, lines 157-166): build a
`DoTResolver` with the same server and client fields and delegate the
lookup to it — no QUIC transport. -/
def doqLookupIP (net : DNSExchange) (server host : List Char) :
    Except Unit (List Nat) :=
  dotLookupIP net server host

/-- Claim C9: for every network behaviour, server address and hostname the
DoQ resolver's lookup is extensionally the DoT resolver's lookup against
the same server address. -/
theorem doqLookupIP_eq_dotLookupIP (net : DNSExchange) (server host : List Char) :
    doqLookupIP net server host = dotLookupIP net server host := rfl

/-! ## Timeouts on the archive fetch -/

/-- From `NewProxy` (proxy source, line 339): the shared HTTP client's
overall timeout, in seconds (`5 * time.Minute`). -/
def proxyClientTimeoutSeconds : Nat := 5 * 60

/-- From `handleZip` (proxy source, line 592): the context timeout put on
archive fetches, in seconds (`10 * time.Minute`). -/
def zipTimeoutSeconds : Nat := 10 * 60

/-- Modelled from Go stdlib semantics: a context carries an optional
absolute deadline and an optional instant at which it is cancelled from
above (for an inbound request context: the client connection closing). -/
structure Ctx where
  deadline : Option Nat
  cancelAt : Option Nat
  deriving DecidableEq

def minOpt : Option Nat → Nat → Nat
  | none, b => b
  | some a, b => min a b

/-- Modelled from Go stdlib semantics of `context.WithTimeout(parent, d)`
called at absolute time `now`: the child deadline is the parent deadline
capped by `now + d`, and cancellation of the parent propagates to the
child. -/
def withTimeout (parent : Ctx) (now d : Nat) : Ctx :=
  { deadline := some (minOpt parent.deadline (now + d)), cancelAt := parent.cancelAt }

/-- The earliest instant at which a context aborts in-flight work. -/
def ctxCutoff (c : Ctx) : Option Nat :=
  match c.deadline, c.cancelAt with
  | none, none => none
  | some a, none => some a
  | none, some b => some b
  | some a, some b => some (min a b)

/-- Modelled from Go stdlib semantics of `http.Client.Do` under a non-zero
`Client.Timeout` `t`, started at `now` with request context `c`: the
round-trip is aborted at the context cutoff or at `now + t`, whichever is
earlier. -/
def clientDoCutoff (t : Nat) (c : Ctx) (now : Nat) : Nat :=
  match ctxCutoff c with
  | none => now + t
  | some a => min a (now + t)

/-- The context `handleZip` issues its upstream GET under (line 592):
`context.WithTimeout(r.Context(), 10*time.Minute)`. -/
def zipFetchCtx (inbound : Ctx) (now : Nat) : Ctx :=
  withTimeout inbound now zipTimeoutSeconds

/-- The instant at which the zip upstream fetch is actually aborted: the
handler's derived context combined with the shared client's own timeout
from `NewProxy`. -/
def zipFetchCutoff (inbound : Ctx) (now : Nat) : Nat :=
  clientDoCutoff proxyClientTimeoutSeconds (zipFetchCtx inbound now) now

/-- Claim C5, counterexample: even for a maximally patient inbound client
(no deadline, never cancelled) the zip fetch is aborted after the shared
client's 5-minute timeout — short of the claimed 10-minute bound — and an
inbound cancellation at time 1 cuts the fetch to time 1, because the
10-minute context is derived from the inbound request context rather than
independent of it. -/
theorem zip_timeout_capped :
    zipFetchCutoff ⟨none, none⟩ 0 = proxyClientTimeoutSeconds
  ∧ proxyClientTimeoutSeconds < zipTimeoutSeconds
  ∧ zipFetchCutoff ⟨none, some 1⟩ 0 = 1 := by decide

/-- Claim C5, amended: the zip fetch context carries a deadline of the
inbound deadline capped by now + 10 minutes and inherits the inbound
cancellation, and the fetch is additionally capped by the shared client's
5-minute timeout — so the effective bound never exceeds 5 minutes, which
is what a patient client gets. -/
theorem zip_timeout_amended (inbound : Ctx) (now : Nat) :
    (zipFetchCtx inbound now).deadline
      = some (minOpt inbound.deadline (now + zipTimeoutSeconds))
  ∧ (zipFetchCtx inbound now).cancelAt = inbound.cancelAt
  ∧ zipFetchCutoff inbound now ≤ now + proxyClientTimeoutSeconds
  ∧ zipFetchCutoff ⟨none, none⟩ now = now + proxyClientTimeoutSeconds := by
  refine ⟨rfl, rfl, ?_, ?_⟩
  · unfold zipFetchCutoff clientDoCutoff
    cases h : ctxCutoff (zipFetchCtx inbound now) <;> simp
  · simp [zipFetchCutoff, clientDoCutoff, ctxCutoff, zipFetchCtx, withTimeout,
      minOpt, zipTimeoutSeconds, proxyClientTimeoutSeconds]

end GoProxy
